import Mathlib

/-!
Shallow embedding of the load-shape scheduling and metrics-aggregation logic of the
`tekton-benchmarks` repository (locustfiles/shapes/*.py, locustfiles/hooks/*.py,
scripts/trace_analyzer.py, scripts/mlflow_logger.py), together with theorems settling
the specification claims about that logic.

Modelling conventions:
* Python `float` elapsed times and metric values are modelled as exact rationals (`ℚ`);
  Python `int` configuration values (user counts, durations in seconds) as `ℕ`.
  Where the source multiplies an int by a float constant and truncates
  (e.g. `int(n * 0.95)`, `int(total_time * 0.10)`), we model the exact real value
  `⌊n * 95 / 100⌋` as natural division; for every input relevant to the claims the IEEE
  double computation agrees with the exact one (checked by hand for the constants used:
  0.95, 0.99, 0.10, 0.25, 0.65, 0.85, 0.5, 0.3, 0.05 at the claimed sizes).
* A Python function that may raise `KeyError` is modelled with the `PyOutcome` sum type.
* Python `sorted` on a list of numbers is modelled by `List.insertionSort (· ≤ ·)`:
  on a totally ordered carrier every correct sort yields the same list.
* Python substring containment `pat in s` is modelled by `List.IsInfix` on `String.toList`.
-/

/-! ## locustfiles/shapes/steady.py -/

/-- `SteadyShape.tick` (steady.py lines 19-32): users and run-time limit come from the
environment (`USERS`, `RUN_TIME_SECONDS`); `spawn_rate = users`; returns `None`
(modelled `none`) when `run_time_elapsed > run_time`, else `(users, spawn_rate)`. -/
def SteadyShape.tick (users run_time : ℕ) (run_time_elapsed : ℚ) : Option (ℕ × ℕ) :=
  if run_time_elapsed > (run_time : ℚ) then
    none
  else
    some (users, users)

/-! ## locustfiles/shapes/spike.py -/

/-- Configuration read by `SpikeShape.__init__` from the environment (spike.py 37-44). -/
structure SpikeConfig where
  baseline_users : ℕ
  peak_users : ℕ
  spawn_rate : ℕ
  baseline_duration : ℕ
  ramp_duration : ℕ
  hold_duration : ℕ
  cooldown_duration : ℕ
deriving DecidableEq

/-- `self.ramp_spawn_rate` computed in `SpikeShape.__init__` (spike.py 46-51):
`max(1, math.ceil(users_to_spawn / ramp_duration))` when `ramp_duration > 0` and
`users_to_spawn > 0`, else the configured `spawn_rate`.  For naturals with `0 < b`,
`math.ceil(a / b) = (a + b - 1) / b` exactly (the float division is exact to well beyond
the magnitudes used here). -/
def SpikeShape.ramp_spawn_rate (c : SpikeConfig) : ℕ :=
  let users_to_spawn := c.peak_users - c.baseline_users
  if 0 < c.ramp_duration ∧ 0 < users_to_spawn then
    max 1 ((users_to_spawn + c.ramp_duration - 1) / c.ramp_duration)
  else
    c.spawn_rate

/-- Cumulative phase boundary `self.t_baseline_end` (spike.py 54). -/
def SpikeShape.t_baseline_end (c : SpikeConfig) : ℕ := c.baseline_duration

/-- Cumulative phase boundary `self.t_ramp_end` (spike.py 55). -/
def SpikeShape.t_ramp_end (c : SpikeConfig) : ℕ :=
  SpikeShape.t_baseline_end c + c.ramp_duration

/-- Cumulative phase boundary `self.t_hold_end` (spike.py 56). -/
def SpikeShape.t_hold_end (c : SpikeConfig) : ℕ :=
  SpikeShape.t_ramp_end c + c.hold_duration

/-- Cumulative phase boundary `self.t_cooldown_end` (spike.py 57). -/
def SpikeShape.t_cooldown_end (c : SpikeConfig) : ℕ :=
  SpikeShape.t_hold_end c + c.cooldown_duration

/-- `SpikeShape.tick` (spike.py 67-83). -/
def SpikeShape.tick (c : SpikeConfig) (run_time : ℚ) : Option (ℕ × ℕ) :=
  if run_time < (SpikeShape.t_baseline_end c : ℚ) then
    some (c.baseline_users, c.spawn_rate)
  else if run_time < (SpikeShape.t_ramp_end c : ℚ) then
    some (c.peak_users, SpikeShape.ramp_spawn_rate c)
  else if run_time < (SpikeShape.t_hold_end c : ℚ) then
    some (c.peak_users, c.spawn_rate)
  else if run_time < (SpikeShape.t_cooldown_end c : ℚ) then
    some (c.baseline_users, c.spawn_rate)
  else
    none

/-! ## locustfiles/shapes/realistic.py -/

/-- `RealisticShape.tick` (realistic.py 29-71).  `peak_users`, `spawn_rate` and
`total_time` come from `USERS`, `SPAWN_RATE`, `RUN_TIME_SECONDS`.  The cumulative phase
boundaries `int(total_time * f)` and per-phase user counts `int(peak_users * f)` are
modelled by exact natural division (see the float note in the file header; at the
claimed configuration `total_time = 300`, `peak_users = 50` the double-precision
results coincide with the exact ones). -/
def RealisticShape.tick (peak_users spawn_rate total_time : ℕ) (run_time : ℚ) :
    Option (ℕ × ℕ) :=
  let t_warmup := total_time * 10 / 100
  let t_ramp := total_time * 25 / 100
  let t_peak := total_time * 65 / 100
  let t_taper := total_time * 85 / 100
  let t_end := total_time
  let warmup_users := max 2 (peak_users * 10 / 100)
  let ramp_users := peak_users * 50 / 100
  let taper_users := peak_users * 30 / 100
  let cooldown_users := max 2 (peak_users * 5 / 100)
  if run_time < (t_warmup : ℚ) then
    some (warmup_users, max 1 (spawn_rate / 2))
  else if run_time < (t_ramp : ℚ) then
    some (ramp_users, spawn_rate)
  else if run_time < (t_peak : ℚ) then
    some (peak_users, spawn_rate)
  else if run_time < (t_taper : ℚ) then
    some (taper_users, spawn_rate)
  else if run_time < (t_end : ℚ) then
    some (cooldown_users, spawn_rate)
  else
    none

/-! ## locustfiles/shapes/custom.py -/

/-- One entry of the `CUSTOM_STAGES` JSON array: a JSON object that may or may not
carry each of the three keys the code accesses (`duration`, `users`, `spawn_rate`).
A missing key is `none`; JSON numbers are modelled as rationals. -/
structure StageJson where
  duration : Option ℚ
  users : Option ℚ
  spawn_rate : Option ℚ
deriving DecidableEq

/-- Outcome of running a piece of Python code that may raise `KeyError` on a missing
dict key: either a value or the exception (tagged with the missing key). -/
inductive PyOutcome (α : Type) where
  | val : α → PyOutcome α
  | keyError : String → PyOutcome α
deriving DecidableEq

/-- The stage list produced by `CustomShape.__init__` (custom.py 40-46): `json.loads`
of `CUSTOM_STAGES`; a parse failure (`none` here) is caught and degrades to `[]`. -/
def CustomShape.initStages (parsed : Option (List StageJson)) : List StageJson :=
  parsed.getD []

/-- `CustomShape.tick` (custom.py 55-63): linear scan for the first stage with
`run_time < stage["duration"]`, returning `(stage["users"], stage["spawn_rate"])`;
`None` (modelled `.val none`) once past every stage.  Each subscript raises `KeyError`
if the key is absent, in the evaluation order of the source. -/
def CustomShape.tick (stages : List StageJson) (run_time : ℚ) :
    PyOutcome (Option (ℚ × ℚ)) :=
  match stages with
  | [] => .val none
  | stage :: rest =>
    match stage.duration with
    | none => .keyError "duration"
    | some d =>
      if run_time < d then
        match stage.users with
        | none => .keyError "users"
        | some u =>
          match stage.spawn_rate with
          | none => .keyError "spawn_rate"
          | some r => .val (some (u, r))
      else
        CustomShape.tick rest run_time

/-- Cumulative duration of a stage, defaulting to 0 (used only to state properties of
stage lists whose `duration` field is present). -/
def StageJson.dur (s : StageJson) : ℚ := s.duration.getD 0

/-- A stage object carrying all three keys the code reads. -/
def StageJson.full (s : StageJson) : Prop :=
  s.duration.isSome ∧ s.users.isSome ∧ s.spawn_rate.isSome

instance (s : StageJson) : Decidable s.full :=
  inferInstanceAs (Decidable (s.duration.isSome ∧ s.users.isSome ∧ s.spawn_rate.isSome))

/-! ## locustfiles/hooks/metrics_collector.py -/

/-- One snapshot of the runner's live counters, as read inside the `try` block of
`_sample_loop` (metrics_collector.py 58-69; the identical loop also appears in
mlflow_hooks.py 119-132).  Counter fields are naturals, rates are rationals. -/
structure RunnerReading where
  active_users : ℕ
  target_users : ℕ
  requests_per_sec : ℚ
  failures_per_sec : ℚ
  avg_response_time_ms : ℚ
  total_requests : ℕ
  total_failures : ℕ
  fail_ratio : ℚ
deriving DecidableEq

/-- The dict appended to `_timeseries_buffer`: the reading plus the sampler's own
`second` counter. -/
structure TsSample extends RunnerReading where
  second : ℕ
deriving DecidableEq

/-- One iteration of `_sample_loop` (metrics_collector.py 55-73) after the sleep:
the attempt to read the runner state either yields a reading (the `try` body appends
a sample tagged with the current `second`) or fails (`except Exception: pass` swallows
the error and nothing is appended); in both cases `second += 1` runs afterwards. -/
def sample_loop_step (buffer : List TsSample) (second : ℕ)
    (reading : Option RunnerReading) : List TsSample × ℕ :=
  match reading with
  | some r => (buffer ++ [{ r with second := second }], second + 1)
  | none => (buffer, second + 1)

/-- The sampling loop run over a finite schedule of tick outcomes (each entry is the
result of attempting to read the runner state on that tick); the greenlet is killed
from outside, which truncates the infinite `while True` to finitely many iterations. -/
def sample_loop (buffer : List TsSample) (second : ℕ) :
    List (Option RunnerReading) → List TsSample × ℕ
  | [] => (buffer, second)
  | r :: rs =>
    let p := sample_loop_step buffer second r
    sample_loop p.1 p.2 rs

/-- Python `max` over a non-empty list of rationals (junk value 0 on `[]`, a case the
source never reaches). -/
def pymax : List ℚ → ℚ
  | [] => 0
  | x :: xs => xs.foldl max x

/-- The percentile block of `_on_test_stop` (metrics_collector.py 132-136): for a
non-empty list of response times, `sorted_rt = sorted(all_response_times)` and the
reported triple `(p50, p95, p99)` is
`(sorted_rt[n // 2], sorted_rt[int(n * 0.95)], sorted_rt[int(n * 0.99)])`.
`mlflow_hooks.py 238-244` computes the same three indices on the same data.
The final `round(·, 2)` of the JSON writer is omitted: it rewrites the selected value
only (identity on the claims' integer-valued inputs) and never changes which element
is selected. -/
def summary_percentiles (all_response_times : List ℚ) : Option (ℚ × ℚ × ℚ) :=
  if all_response_times.isEmpty then
    none
  else
    let sorted_rt := all_response_times.insertionSort (· ≤ ·)
    let n := sorted_rt.length
    some (sorted_rt.getD (n / 2) 0,
          sorted_rt.getD (n * 95 / 100) 0,
          sorted_rt.getD (n * 99 / 100) 0)

/-! ## scripts/trace_analyzer.py -/

/-- One span as consumed by `analyze_spans`: name plus start/end nanosecond
timestamps (already converted by `int(span.get(..., "0"))`, default 0). -/
structure Span where
  name : String
  startTimeUnixNano : ℤ
  endTimeUnixNano : ℤ
deriving DecidableEq

/-- Python substring test `pat in s`. -/
def occursIn (pat s : String) : Prop := pat.toList <:+: s.toList

instance (pat s : String) : Decidable (occursIn pat s) :=
  List.decidableInfix pat.toList s.toList

/-- `dur_ms` for one span (trace_analyzer.py 93-95): `(end_ns - start_ns) / 1_000_000`
when both timestamps are truthy (non-zero), else 0. -/
def Span.durMs (sp : Span) : ℚ :=
  if sp.startTimeUnixNano ≠ 0 ∧ sp.endTimeUnixNano ≠ 0 then
    ((sp.endTimeUnixNano - sp.startTimeUnixNano : ℤ) : ℚ) / 1000000
  else 0

/-- The accumulator dict of `analyze_spans` (trace_analyzer.py 88-90). -/
structure SpanAnalysis where
  tool_call_count : ℕ
  request_duration_ms : ℚ
  inference_durations_ms : List ℚ
  list_mcp_tools_durations_ms : List ℚ
  invoke_mcp_tool_durations_ms : List ℚ
deriving DecidableEq

/-- The initial accumulator of `analyze_spans` (trace_analyzer.py 88-90). -/
def SpanAnalysis.init : SpanAnalysis := ⟨0, 0, [], [], []⟩

/-- The body of the `for span in spans` loop of `analyze_spans`
(trace_analyzer.py 91-106): four independent `if` blocks, in source order. -/
def analyzeStep (acc : SpanAnalysis) (sp : Span) : SpanAnalysis :=
  let d := Span.durMs sp
  let acc1 :=
    if (sp.name = "/v1/responses" ∨ sp.name = "create_response") ∧ 0 < d then
      { acc with request_duration_ms := d }
    else acc
  let acc2 :=
    if (occursIn "openai_chat_completion" sp.name ∨ occursIn "InferenceRouter" sp.name ∨
        occursIn "chat_completion" sp.name) ∧ 0 < d then
      { acc1 with inference_durations_ms := acc1.inference_durations_ms ++ [d] }
    else acc1
  let acc3 :=
    if (occursIn "list_mcp_tools" sp.name ∨ occursIn "list_tools" sp.name) ∧ 0 < d then
      { acc2 with list_mcp_tools_durations_ms := acc2.list_mcp_tools_durations_ms ++ [d] }
    else acc2
  if occursIn "invoke_mcp_tool" sp.name ∨ occursIn "invoke_tool" sp.name then
    let acc4 := { acc3 with tool_call_count := acc3.tool_call_count + 1 }
    if 0 < d then
      { acc4 with invoke_mcp_tool_durations_ms := acc4.invoke_mcp_tool_durations_ms ++ [d] }
    else acc4
  else acc3

/-- `analyze_spans` (trace_analyzer.py 87-107). -/
def analyze_spans (spans : List Span) : SpanAnalysis :=
  spans.foldl analyzeStep SpanAnalysis.init

/-- A span whose name matches at least one of the recognized span-name patterns
(request boundary, inference, tool listing, tool invocation) of `analyze_spans`.
This is the spec-side notion used to state claim C8. -/
def Span.matchesAny (sp : Span) : Prop :=
  (sp.name = "/v1/responses" ∨ sp.name = "create_response") ∨
  (occursIn "openai_chat_completion" sp.name ∨ occursIn "InferenceRouter" sp.name ∨
   occursIn "chat_completion" sp.name) ∨
  (occursIn "list_mcp_tools" sp.name ∨ occursIn "list_tools" sp.name) ∨
  (occursIn "invoke_mcp_tool" sp.name ∨ occursIn "invoke_tool" sp.name)

instance (sp : Span) : Decidable (Span.matchesAny sp) :=
  inferInstanceAs (Decidable
    ((sp.name = "/v1/responses" ∨ sp.name = "create_response") ∨
     (occursIn "openai_chat_completion" sp.name ∨ occursIn "InferenceRouter" sp.name ∨
      occursIn "chat_completion" sp.name) ∨
     (occursIn "list_mcp_tools" sp.name ∨ occursIn "list_tools" sp.name) ∨
     (occursIn "invoke_mcp_tool" sp.name ∨ occursIn "invoke_tool" sp.name)))

/-- The per-request accumulation of `main` (trace_analyzer.py 169-184), restricted to
the traces whose detail fetch succeeded (a failed fetch or empty `traceID` `continue`s
before the span test): each trace contributes `analyze_spans spans` to `per_request`
exactly when its extracted span list is non-empty (`if spans:`). -/
def per_request_records (traces : List (List Span)) : List SpanAnalysis :=
  traces.foldl (fun acc spans => if spans.isEmpty then acc else acc ++ [analyze_spans spans]) []

/-- Python `statistics.median(data)` (used for the trace p50, trace_analyzer.py 128,
137): on the ascending sort, the middle element for odd `n`, the mean of the two middle
elements for even `n` (junk 0 on `[]`, which the source guards against). -/
def pymedian (dataIn : List ℚ) : ℚ :=
  let data := dataIn.insertionSort (· ≤ ·)
  let n := data.length
  if n = 0 then 0
  else if n % 2 = 1 then data.getD (n / 2) 0
  else (data.getD (n / 2 - 1) 0 + data.getD (n / 2) 0) / 2

/-- Python `statistics.quantiles(dataIn, n=nq)[i-1]` with the default `exclusive`
method (CPython `statistics.py`): on the ascending sort `data` of length `ld`, with
`m = ld + 1`, cut point `i` is interpolated as
`(data[j-1] * (nq - delta) + data[j] * delta) / nq` where `j = clamp(i*m//nq, 1, ld-1)`
and `delta = i*m - j*nq`.  Requires `ld ≥ 2` (the caller guarantees `ld ≥ 20`). -/
def quantiles_exclusive_cut (dataIn : List ℚ) (nq i : ℕ) : ℚ :=
  let data := dataIn.insertionSort (· ≤ ·)
  let ld := data.length
  let m := ld + 1
  let j0 := i * m / nq
  let j := if j0 < 1 then 1 else if ld - 1 < j0 then ld - 1 else j0
  let delta : ℤ := (i * m : ℤ) - (j * nq : ℤ)
  (data.getD (j - 1) 0 * ((nq : ℚ) - (delta : ℚ)) + data.getD j 0 * (delta : ℚ)) / (nq : ℚ)

/-- `safe_p95` (trace_analyzer.py 110-113): `statistics.quantiles(values, n=20)[18]`
when at least 20 values exist, else `max(values)`. -/
def safe_p95 (values : List ℚ) : ℚ :=
  if 20 ≤ values.length then
    quantiles_exclusive_cut values 20 19
  else
    pymax values

/-! ## scripts/mlflow_logger.py -/

/-- `MAX_BATCH_SIZE` (mlflow_logger.py 31); the same literal 1000 is `batch_size` in
mlflow_hooks.py 274. -/
def MAX_BATCH_SIZE : ℕ := 1000

/-- The sequence of metric chunks submitted by `log_batch_chunked`
(mlflow_logger.py 185-187): `for i in range(0, len(metrics), MAX_BATCH_SIZE)` submits
`metrics[i:i + MAX_BATCH_SIZE]`; iteration `k` of that loop has `i = MAX_BATCH_SIZE*k`
and the loop runs `ceil(len(metrics)/MAX_BATCH_SIZE)` times.  The identical chunk loop
appears in mlflow_hooks.py 275-277. -/
def metric_chunks (metrics : List α) : List (List α) :=
  (List.range ((metrics.length + MAX_BATCH_SIZE - 1) / MAX_BATCH_SIZE)).map
    (fun k => (metrics.drop (MAX_BATCH_SIZE * k)).take MAX_BATCH_SIZE)

/-- One MLflow `Metric(key, value, timestamp, step)` entity (mlflow_logger.py 29). -/
structure MetricPoint where
  key : String
  value : ℚ
  timestamp : ℤ
  step : ℤ
deriving DecidableEq

/-- One MLflow `Param(key, value)` entity. -/
structure ParamKV where
  key : String
  value : String
deriving DecidableEq

/-- One MLflow `RunTag(key, value)` entity. -/
structure TagKV where
  key : String
  value : String
deriving DecidableEq

/-- The payload of one `client.log_batch(...)` call. -/
structure LogBatchCall where
  metrics : List MetricPoint
  params : List ParamKV
  tags : List TagKV
deriving DecidableEq

/-- `log_batch_chunked` (mlflow_logger.py 177-190), as the sequence of
`client.log_batch` calls it performs: when `params or tags` is truthy, one call with
`params[:MAX_BATCH_SIZE]`, `tags[:MAX_BATCH_SIZE]` and no metrics; then one call per
metric chunk. -/
def log_batch_chunked (metrics : List MetricPoint) (params : List ParamKV)
    (tags : List TagKV) : List LogBatchCall :=
  (if params ≠ [] ∨ tags ≠ [] then
    [{ metrics := [], params := params.take MAX_BATCH_SIZE, tags := tags.take MAX_BATCH_SIZE }]
  else []) ++
  (metric_chunks metrics).map (fun c => { metrics := c, params := [], tags := [] })

/-! ## Helper lemmas: chunking -/

theorem metric_chunks_nil : metric_chunks ([] : List α) = [] := by
  simp [metric_chunks, MAX_BATCH_SIZE]

theorem metric_chunks_cons (l : List α) (h : l ≠ []) :
    metric_chunks l =
      l.take MAX_BATCH_SIZE :: metric_chunks (l.drop MAX_BATCH_SIZE) := by
  have hlen : 0 < l.length := List.length_pos.mpr h
  unfold metric_chunks MAX_BATCH_SIZE
  have hcount : (l.length + 1000 - 1) / 1000 =
      ((l.drop 1000).length + 1000 - 1) / 1000 + 1 := by
    rw [List.length_drop]; omega
  rw [hcount, List.range_succ_eq_map]
  simp only [List.map_cons, Nat.mul_zero, List.drop_zero, List.map_map]
  congr 1
  apply List.map_congr_left
  intro k _
  simp only [Function.comp_apply, List.drop_drop]
  congr 2
  omega

theorem metric_chunks_flatten (l : List α) : (metric_chunks l).flatten = l := by
  by_cases h : l = []
  · subst h; rw [metric_chunks_nil]; rfl
  · rw [metric_chunks_cons l h, List.flatten_cons,
      metric_chunks_flatten (l.drop MAX_BATCH_SIZE), List.take_append_drop]
termination_by l.length
decreasing_by
  have := List.length_pos.mpr h
  simp only [List.length_drop, MAX_BATCH_SIZE]
  omega

theorem metric_chunks_mem (l : List α) (c : List α) (hc : c ∈ metric_chunks l) :
    c.length ≤ MAX_BATCH_SIZE ∧ c ≠ [] := by
  unfold metric_chunks at hc
  simp only [List.mem_map, List.mem_range] at hc
  obtain ⟨k, hk, rfl⟩ := hc
  unfold MAX_BATCH_SIZE at *
  constructor
  · simp [List.length_take]
  · intro hemp
    have h0 : ((l.drop (1000 * k)).take 1000).length = 0 := by rw [hemp]; rfl
    rw [List.length_take, List.length_drop] at h0
    omega

theorem flatten_map_const_nil (l : List β) :
    (l.map (fun _ => ([] : List α))).flatten = [] := by
  induction l with
  | nil => rfl
  | cons x xs ih => simp [ih]

theorem log_batch_chunked_params_flatten (metrics : List MetricPoint)
    (params : List ParamKV) (tags : List TagKV) :
    ((log_batch_chunked metrics params tags).map LogBatchCall.params).flatten =
      params.take MAX_BATCH_SIZE := by
  unfold log_batch_chunked
  by_cases h : params ≠ [] ∨ tags ≠ []
  · rw [if_pos h]
    simp [List.map_map, Function.comp_def, flatten_map_const_nil]
  · rw [if_neg h]
    push_neg at h
    simp [h.1, List.map_map, Function.comp_def, flatten_map_const_nil]

theorem log_batch_chunked_tags_flatten (metrics : List MetricPoint)
    (params : List ParamKV) (tags : List TagKV) :
    ((log_batch_chunked metrics params tags).map LogBatchCall.tags).flatten =
      tags.take MAX_BATCH_SIZE := by
  unfold log_batch_chunked
  by_cases h : params ≠ [] ∨ tags ≠ []
  · rw [if_pos h]
    simp [List.map_map, Function.comp_def, flatten_map_const_nil]
  · rw [if_neg h]
    push_neg at h
    simp [h.2, List.map_map, Function.comp_def, flatten_map_const_nil]

theorem log_batch_chunked_metrics_flatten (metrics : List MetricPoint)
    (params : List ParamKV) (tags : List TagKV) :
    ((log_batch_chunked metrics params tags).map LogBatchCall.metrics).flatten = metrics := by
  unfold log_batch_chunked
  by_cases h : params ≠ [] ∨ tags ≠ []
  · rw [if_pos h]
    simpa [List.map_map, Function.comp_def] using metric_chunks_flatten metrics
  · rw [if_neg h]
    simpa [List.map_map, Function.comp_def] using metric_chunks_flatten metrics

theorem log_batch_chunked_one_param_call (metrics : List MetricPoint)
    (params : List ParamKV) (tags : List TagKV) :
    ((log_batch_chunked metrics params tags).filter
      (fun call => !(call.params.isEmpty && call.tags.isEmpty))).length ≤ 1 := by
  unfold log_batch_chunked
  have hmc : ((metric_chunks metrics).map
      (fun c => ({ metrics := c, params := [], tags := [] } : LogBatchCall))).filter
      (fun call => !(call.params.isEmpty && call.tags.isEmpty)) = [] := by
    rw [List.filter_eq_nil_iff]
    intro call hc
    simp only [List.mem_map] at hc
    obtain ⟨c, -, rfl⟩ := hc
    simp
  by_cases h : params ≠ [] ∨ tags ≠ []
  · rw [if_pos h, List.filter_append, hmc, List.append_nil]
    exact (List.length_filter_le _ _).trans (by simp)
  · rw [if_neg h, List.nil_append, hmc]
    simp

/-- Claim C2: for every input list of metric points, the chunked batch submission of
`log_batch_chunked` emits chunks each of size at most `MAX_BATCH_SIZE = 1000`, none of
them empty, and concatenating all chunks in emission order reproduces the input list
exactly (same elements, same relative order, nothing duplicated or dropped) — in
particular also when the input length is an exact multiple of the batch limit. -/
theorem claim_C2 (metrics : List MetricPoint) :
    (metric_chunks metrics).flatten = metrics ∧
    ∀ c ∈ metric_chunks metrics, c.length ≤ MAX_BATCH_SIZE ∧ c ≠ [] :=
  ⟨metric_chunks_flatten metrics, fun c hc => metric_chunks_mem metrics c hc⟩

/-- Concrete input for the C2 witness: exactly 2000 metric points. -/
def c2input : List MetricPoint :=
  (List.range 2000).map (fun k : ℕ => ⟨"m", (k : ℚ), 0, 0⟩)

/-- Witness for C2 at a concrete input whose length (2000) is an exact multiple of the
batch limit: the chunks re-concatenate to the input and the first chunk is a full,
non-empty batch. -/
theorem claim_C2_witness :
    (metric_chunks c2input).flatten = c2input ∧
    (c2input.take MAX_BATCH_SIZE).length ≤ MAX_BATCH_SIZE ∧
    c2input.take MAX_BATCH_SIZE ≠ [] :=
  ⟨(claim_C2 c2input).1,
   (claim_C2 c2input).2 (c2input.take MAX_BATCH_SIZE)
     (by
       have h2000 : c2input.length = 2000 := by
         rw [c2input, List.length_map, List.length_range]
       rw [metric_chunks_cons c2input (List.ne_nil_of_length_pos (by omega))]
       exact List.mem_cons_self _ _)⟩

/-- Claim C10: when `log_batch_chunked` is given more than 1000 params (or tags), only
the first 1000 of each are submitted, in a single params/tags call, and the remainder
are silently dropped — unlike metrics, which are fully submitted across as many chunked
calls as needed. -/
theorem claim_C10 (metrics : List MetricPoint) (params : List ParamKV)
    (tags : List TagKV) :
    ((log_batch_chunked metrics params tags).map LogBatchCall.params).flatten =
      params.take MAX_BATCH_SIZE ∧
    ((log_batch_chunked metrics params tags).map LogBatchCall.tags).flatten =
      tags.take MAX_BATCH_SIZE ∧
    ((log_batch_chunked metrics params tags).map LogBatchCall.metrics).flatten = metrics ∧
    ((log_batch_chunked metrics params tags).filter
      (fun call => !(call.params.isEmpty && call.tags.isEmpty))).length ≤ 1 ∧
    (MAX_BATCH_SIZE < params.length → params.take MAX_BATCH_SIZE ≠ params) ∧
    (MAX_BATCH_SIZE < tags.length → tags.take MAX_BATCH_SIZE ≠ tags) := by
  refine ⟨log_batch_chunked_params_flatten metrics params tags,
    log_batch_chunked_tags_flatten metrics params tags,
    log_batch_chunked_metrics_flatten metrics params tags,
    log_batch_chunked_one_param_call metrics params tags, ?_, ?_⟩
  · intro h heq
    have := congrArg List.length heq
    rw [List.length_take] at this
    omega
  · intro h heq
    have := congrArg List.length heq
    rw [List.length_take] at this
    omega

/-- Concrete input for the C10 witness: 1001 params. -/
def c10params : List ParamKV := List.replicate 1001 ⟨"p", "v"⟩

/-- Witness for C10 at a concrete input of 1001 params: the submitted params are the
first 1000 and differ from the full list (the 1001st is dropped), while the metric
payloads re-concatenate to the full metric list. -/
theorem claim_C10_witness :
    ((log_batch_chunked c2input c10params []).map LogBatchCall.params).flatten =
      c10params.take MAX_BATCH_SIZE ∧
    c10params.take MAX_BATCH_SIZE ≠ c10params ∧
    ((log_batch_chunked c2input c10params []).map LogBatchCall.metrics).flatten = c2input :=
  ⟨(claim_C10 c2input c10params []).1,
   (claim_C10 c2input c10params []).2.2.2.2.1
     (by simp only [c10params, List.length_replicate, MAX_BATCH_SIZE]; omega),
   (claim_C10 c2input c10params []).2.2.1⟩

/-! ## Claims about the load shapes -/

/-- Claim C7: the constant (steady) strategy with concurrency `C` and total duration
`D` returns `(C, C)` for every tick with `elapsed ≤ D` — including the tick at exactly
`elapsed = D` — and returns STOP (`none`) exactly when `elapsed > D`: the comparison is
strict `>`, not `≥`. -/
theorem claim_C7 (users run_time : ℕ) (e : ℚ) :
    (e ≤ (run_time : ℚ) → SteadyShape.tick users run_time e = some (users, users)) ∧
    SteadyShape.tick users run_time (run_time : ℚ) = some (users, users) ∧
    (SteadyShape.tick users run_time e = none ↔ (run_time : ℚ) < e) := by
  unfold SteadyShape.tick
  refine ⟨fun h => if_neg (not_lt.mpr h), if_neg (lt_irrefl _), ?_⟩
  split_ifs with h
  · exact ⟨fun _ => h, fun _ => rfl⟩
  · exact ⟨fun hx => absurd hx (by simp), fun hx => absurd hx h⟩

/-- Witness for C7: with `C = 10`, `D = 60`, the tick at exactly 60 still runs and the
tick at 61 stops. -/
theorem claim_C7_witness :
    SteadyShape.tick 10 60 60 = some (10, 10) ∧
    (SteadyShape.tick 10 60 61 = none ↔ (60 : ℚ) < 61) :=
  ⟨(claim_C7 10 60 60).1 (by decide), (claim_C7 10 60 61).2.2⟩

/-- `RealisticShape.tick` at the claimed configuration `peak = 50`, `spawn_rate = 5`
(the default), `total_time = 300`, with all derived numerals evaluated. -/
theorem realistic_tick_300_50_eq (e : ℚ) :
    RealisticShape.tick 50 5 300 e =
      if e < 30 then some (5, 2)
      else if e < 75 then some (25, 5)
      else if e < 195 then some (50, 5)
      else if e < 255 then some (15, 5)
      else if e < 300 then some (2, 5)
      else none := by
  unfold RealisticShape.tick
  simp only [show (300 * 10 / 100 : ℕ) = 30 from by decide,
    show (300 * 25 / 100 : ℕ) = 75 from by decide,
    show (300 * 65 / 100 : ℕ) = 195 from by decide,
    show (300 * 85 / 100 : ℕ) = 255 from by decide,
    show (max 2 (50 * 10 / 100) : ℕ) = 5 from by decide,
    show (50 * 50 / 100 : ℕ) = 25 from by decide,
    show (50 * 30 / 100 : ℕ) = 15 from by decide,
    show (max 2 (50 * 5 / 100) : ℕ) = 2 from by decide,
    show (max 1 (5 / 2) : ℕ) = 2 from by decide]
  norm_num

/-- Claim C6: the multi-segment ramp (realistic) strategy with total duration 300 and
peak concurrency 50 returns target concurrency 5 on `[0, 30)`, 25 on `[30, 75)`, 50 on
`[75, 195)`, 15 on `[195, 255)`, 2 on `[255, 300)`, and STOP from 300 onwards. -/
theorem claim_C6 (e : ℚ) :
    (0 ≤ e → e < 30 → RealisticShape.tick 50 5 300 e = some (5, 2)) ∧
    (30 ≤ e → e < 75 → RealisticShape.tick 50 5 300 e = some (25, 5)) ∧
    (75 ≤ e → e < 195 → RealisticShape.tick 50 5 300 e = some (50, 5)) ∧
    (195 ≤ e → e < 255 → RealisticShape.tick 50 5 300 e = some (15, 5)) ∧
    (255 ≤ e → e < 300 → RealisticShape.tick 50 5 300 e = some (2, 5)) ∧
    (300 ≤ e → RealisticShape.tick 50 5 300 e = none) := by
  refine ⟨fun h1 h2 => ?_, fun h1 h2 => ?_, fun h1 h2 => ?_, fun h1 h2 => ?_,
    fun h1 h2 => ?_, fun h1 => ?_⟩ <;>
    rw [realistic_tick_300_50_eq] <;> split_ifs <;> first | rfl | linarith

/-- Witness for C6: one tick inside the peak phase and one past the end. -/
theorem claim_C6_witness :
    RealisticShape.tick 50 5 300 100 = some (50, 5) ∧
    RealisticShape.tick 50 5 300 301 = none :=
  ⟨(claim_C6 100).2.2.1 (by decide) (by decide), (claim_C6 301).2.2.2.2.2 (by decide)⟩

/-- Ceiling division on naturals: `(a + b - 1) / b` is `⌈a / b⌉`. -/
theorem ceil_div_nat (a b : ℕ) (hb : 0 < b) :
    ⌈(a : ℚ) / (b : ℚ)⌉ = ((a + b - 1) / b : ℕ) := by
  have hdm := Nat.div_add_mod (a + b - 1) b
  have hmod : (a + b - 1) % b < b := Nat.mod_lt _ hb
  set q := (a + b - 1) / b with hq
  have h1 : a ≤ b * q := by omega
  have h2 : b * q < a + b := by omega
  have hb' : (0 : ℚ) < (b : ℚ) := by exact_mod_cast hb
  rw [Int.ceil_eq_iff]
  constructor
  · have h2' : (b : ℚ) * (q : ℚ) < (a : ℚ) + (b : ℚ) := by exact_mod_cast h2
    refine (lt_div_iff₀ hb').mpr ?_
    push_cast
    nlinarith
  · have h1' : (a : ℚ) ≤ (b : ℚ) * (q : ℚ) := by exact_mod_cast h1
    refine (div_le_iff₀ hb').mpr ?_
    push_cast
    linarith

/-- Nat ceiling division reaches the numerator within the denominator many steps:
`a ≤ ((a + b - 1) / b) * b` for `0 < b`. -/
theorem ceil_div_nat_mul_ge (a b : ℕ) (hb : 0 < b) : a ≤ ((a + b - 1) / b) * b := by
  have hdm := Nat.div_add_mod (a + b - 1) b
  have hmod : (a + b - 1) % b < b := Nat.mod_lt _ hb
  rw [Nat.mul_comm]
  omega

/-- Claim C5: for the spike strategy, when the ramp duration `R` is positive and
`peak > baseline`, the ramp spawn rate computed at construction equals
`max(1, ceil((peak - baseline) / R))`; under that rate the full spike
`peak - baseline` is spawned within `R` seconds (`peak - baseline ≤ rate * R`), so
concurrency reaches `peak` at or before `elapsed = baseline_duration + ramp_duration`
(the whole ramp window `[baseline_duration, baseline_duration + R)` targets
`(peak, rate)`); when `peak ≤ baseline` or `R = 0`, the ramp rate is the configured
base spawn rate instead. -/
theorem claim_C5 (c : SpikeConfig) :
    (0 < c.ramp_duration → c.baseline_users < c.peak_users →
      ((SpikeShape.ramp_spawn_rate c : ℤ) =
        max 1 ⌈((c.peak_users - c.baseline_users : ℕ) : ℚ) / (c.ramp_duration : ℚ)⌉ ∧
       c.peak_users - c.baseline_users ≤ SpikeShape.ramp_spawn_rate c * c.ramp_duration ∧
       ∀ e : ℚ, (c.baseline_duration : ℚ) ≤ e →
         e < ((c.baseline_duration + c.ramp_duration : ℕ) : ℚ) →
         SpikeShape.tick c e = some (c.peak_users, SpikeShape.ramp_spawn_rate c))) ∧
    ((c.peak_users ≤ c.baseline_users ∨ c.ramp_duration = 0) →
      SpikeShape.ramp_spawn_rate c = c.spawn_rate) := by
  constructor
  · intro hR hpb
    have hpos : 0 < c.peak_users - c.baseline_users := by omega
    have hrate : SpikeShape.ramp_spawn_rate c =
        max 1 ((c.peak_users - c.baseline_users + c.ramp_duration - 1) / c.ramp_duration) := by
      unfold SpikeShape.ramp_spawn_rate
      rw [if_pos ⟨hR, hpos⟩]
    refine ⟨?_, ?_, ?_⟩
    · rw [hrate, ceil_div_nat _ _ hR]
      push_cast [Nat.cast_max]
      rfl
    · rw [hrate]
      calc c.peak_users - c.baseline_users
          ≤ ((c.peak_users - c.baseline_users + c.ramp_duration - 1) / c.ramp_duration) *
              c.ramp_duration := ceil_div_nat_mul_ge _ _ hR
        _ ≤ max 1 ((c.peak_users - c.baseline_users + c.ramp_duration - 1) / c.ramp_duration) *
              c.ramp_duration := by
            exact Nat.mul_le_mul_right _ (le_max_right _ _)
    · intro e he1 he2
      unfold SpikeShape.tick
      rw [if_neg (not_lt.mpr (by
        unfold SpikeShape.t_baseline_end
        exact_mod_cast he1))]
      rw [if_pos (by
        unfold SpikeShape.t_ramp_end SpikeShape.t_baseline_end
        exact he2)]
  · intro h
    unfold SpikeShape.ramp_spawn_rate
    rw [if_neg (by omega)]

/-- Witness for C5: `baseline = 5`, `peak = 100`, `R = 10`, base rate 10 gives ramp
rate `max(1, ceil(95/10)) = 10`, `95 ≤ 10 * 10`, and the tick at `elapsed = 35`
(inside the ramp window `[30, 40)`) targets the peak at the derived rate; with
`R = 0` the rate falls back to the base rate. -/
theorem claim_C5_witness :
    ((SpikeShape.ramp_spawn_rate ⟨5, 100, 10, 30, 10, 60, 30⟩ : ℤ) =
      max 1 ⌈((100 - 5 : ℕ) : ℚ) / ((10 : ℕ) : ℚ)⌉ ∧
     100 - 5 ≤ SpikeShape.ramp_spawn_rate ⟨5, 100, 10, 30, 10, 60, 30⟩ * 10 ∧
     SpikeShape.tick ⟨5, 100, 10, 30, 10, 60, 30⟩ 35 =
       some (100, SpikeShape.ramp_spawn_rate ⟨5, 100, 10, 30, 10, 60, 30⟩)) ∧
    SpikeShape.ramp_spawn_rate ⟨5, 100, 10, 30, 0, 60, 30⟩ = 10 :=
  ⟨⟨((claim_C5 ⟨5, 100, 10, 30, 10, 60, 30⟩).1 (by decide) (by decide)).1,
    ((claim_C5 ⟨5, 100, 10, 30, 10, 60, 30⟩).1 (by decide) (by decide)).2.1,
    ((claim_C5 ⟨5, 100, 10, 30, 10, 60, 30⟩).1 (by decide) (by decide)).2.2 35
      (by decide) (by decide)⟩,
   (claim_C5 ⟨5, 100, 10, 30, 0, 60, 30⟩).2 (Or.inr rfl)⟩

/-! ## Helper lemmas: custom stage list -/

/-- On a stage list whose entries all carry the three required keys, `tick` never
raises and returns the first stage whose cumulative duration strictly exceeds the
elapsed time (or `None` when there is none). -/
theorem tick_full_eq (stages : List StageJson) (hfull : ∀ s ∈ stages, s.full) (e : ℚ) :
    CustomShape.tick stages e =
      .val ((stages.find? (fun s => decide (e < s.dur))).map
        (fun s => (s.users.getD 0, s.spawn_rate.getD 0))) := by
  induction stages with
  | nil => rfl
  | cons s rest ih =>
    obtain ⟨hd0, hu0, hr0⟩ := hfull s (List.mem_cons_self s rest)
    obtain ⟨d, hd⟩ := Option.isSome_iff_exists.mp hd0
    obtain ⟨u, hu⟩ := Option.isSome_iff_exists.mp hu0
    obtain ⟨r, hr⟩ := Option.isSome_iff_exists.mp hr0
    have hdur : s.dur = d := by rw [StageJson.dur, hd]; rfl
    by_cases hlt : e < d
    · have hdec : (decide (e < s.dur)) = true := by rw [hdur]; exact decide_eq_true hlt
      simp [CustomShape.tick, hd, hu, hr, List.find?_cons, hdec, hlt]
    · have hdec : (decide (e < s.dur)) = false := by rw [hdur]; exact decide_eq_false hlt
      simp only [CustomShape.tick, hd, List.find?_cons, hdec, if_neg hlt]
      exact ih (fun t ht => hfull t (List.mem_cons_of_mem s ht))

/-- Every member of a `≤`-chain is at most its last element. -/
theorem chain_le_le_getLastD :
    ∀ (l : List ℚ) (d : ℚ), l.Chain' (· ≤ ·) → ∀ x ∈ l, x ≤ l.getLastD d := by
  intro l
  induction l with
  | nil => intro d _ x hx; cases hx
  | cons a t ih =>
    intro d hc x hx
    rw [List.getLastD_cons]
    cases t with
    | nil =>
      rcases List.mem_cons.mp hx with rfl | hx2
      · simp [List.getLastD]
      · cases hx2
    | cons b t2 =>
      rw [List.chain'_cons] at hc
      rcases List.mem_cons.mp hx with rfl | hx2
      · exact hc.1.trans (ih x hc.2 b (List.mem_cons_self _ _))
      · exact ih a hc.2 x hx2

/-- The `getLastD` of a non-empty list is a member. -/
theorem getLastD_mem (l : List ℚ) (d : ℚ) (hne : l ≠ []) : l.getLastD d ∈ l := by
  rw [List.getLastD_eq_getLast?, List.getLast?_eq_getLast l hne]
  exact List.getLast_mem hne

/-- Claim C3 (amended): for a valid custom stage list (non-empty, all required fields
present, cumulative durations strictly increasing), `tick` returns the
`(users, spawn_rate)` of the first stage whose cumulative duration exceeds the elapsed
time, and returns STOP exactly when the elapsed time reaches or exceeds (`≥`) the final
cumulative duration — never before. -/
theorem claim_C3 (stages : List StageJson) (e : ℚ)
    (hne : stages ≠ [])
    (hfull : ∀ s ∈ stages, s.full)
    (hinc : (stages.map StageJson.dur).Chain' (· < ·)) :
    CustomShape.tick stages e =
      .val ((stages.find? (fun s => decide (e < s.dur))).map
        (fun s => (s.users.getD 0, s.spawn_rate.getD 0))) ∧
    (CustomShape.tick stages e = .val none ↔
      (stages.map StageJson.dur).getLastD 0 ≤ e) := by
  have h1 := tick_full_eq stages hfull e
  refine ⟨h1, ?_⟩
  rw [h1]
  have hchain : (stages.map StageJson.dur).Chain' (· ≤ ·) :=
    hinc.imp (fun _ _ hab => le_of_lt hab)
  constructor
  · intro hv
    have hfind : stages.find? (fun s => decide (e < s.dur)) = none := by
      cases hf : stages.find? (fun s => decide (e < s.dur)) with
      | none => rfl
      | some s => rw [hf] at hv; simp at hv
    rw [List.find?_eq_none] at hfind
    have hmem : (stages.map StageJson.dur).getLastD 0 ∈ stages.map StageJson.dur :=
      getLastD_mem _ 0 (by simpa using hne)
    obtain ⟨s, hs, hds⟩ := List.mem_map.mp hmem
    have := hfind s hs
    rw [← hds]
    simpa using this
  · intro hle
    have hfind : stages.find? (fun s => decide (e < s.dur)) = none := by
      rw [List.find?_eq_none]
      intro s hs
      simp only [decide_eq_true_eq, not_lt]
      exact le_trans (chain_le_le_getLastD _ 0 hchain _ (List.mem_map_of_mem _ hs)) hle
    rw [hfind]
    rfl

/-- Stage list used by the C3 witness. -/
def c3stages : List StageJson :=
  [⟨some 60, some 10, some 2⟩, ⟨some 120, some 50, some 10⟩]

/-- Witness for C3 (amended) on the two-stage list `[(60, 10, 2), (120, 50, 10)]` at
elapsed 90: the tick picks the second stage and the STOP characterization holds. -/
theorem claim_C3_witness :
    CustomShape.tick c3stages 90 =
      .val ((c3stages.find? (fun s => decide ((90 : ℚ) < s.dur))).map
        (fun s => (s.users.getD 0, s.spawn_rate.getD 0))) ∧
    (CustomShape.tick c3stages 90 = .val none ↔
      (c3stages.map StageJson.dur).getLastD 0 ≤ 90) :=
  claim_C3 c3stages 90 (by decide) (by decide)
    (by
      rw [show c3stages.map StageJson.dur = [60, 120] from rfl]
      exact List.chain'_pair.mpr (by decide))

/-- Counterexample for C3 as stated: on the single-stage list `[(duration 60)]` the
tick at exactly `elapsed = 60` already returns STOP, although 60 does not exceed the
final cumulative duration 60 — so STOP does not happen "exactly when elapsed exceeds
the final cumulative duration". -/
theorem claim_C3_counterexample :
    CustomShape.tick [⟨some 60, some 10, some 2⟩] 60 = .val none ∧
    ¬ ((60 : ℚ) > (StageJson.dur ⟨some 60, some 10, some 2⟩)) := by
  exact ⟨by decide, by decide⟩

/-- Claim C4 (amended): for an empty `CUSTOM_STAGES` array or an unparsable
configuration (both of which leave `self.stages = []`), the very first `tick` call
returns STOP without raising. -/
theorem claim_C4 (parsed : Option (List StageJson)) (e : ℚ)
    (h : parsed = none ∨ parsed = some []) :
    CustomShape.tick (CustomShape.initStages parsed) e = .val none := by
  rcases h with rfl | rfl <;> rfl

/-- Witness for C4 (amended): an unparsable configuration, first tick at elapsed 0. -/
theorem claim_C4_witness : CustomShape.tick (CustomShape.initStages none) 0 = .val none :=
  claim_C4 none 0 (Or.inl rfl)

/-- Counterexample for C4 as stated: a stage entry missing the required `duration`
field makes the very first `tick` call raise `KeyError` instead of returning STOP. -/
theorem claim_C4_counterexample :
    CustomShape.tick [⟨none, some 10, some 2⟩] 0 = .keyError "duration" := rfl

/-! ## Helper lemmas: time-series sampler -/

/-- Running the sampling loop from any starting buffer and counter: the counter
advances by exactly the number of ticks, and the recorded `second` values extend the
starting buffer with `start + i` for exactly those tick indices `i` whose read
succeeded. -/
theorem sample_loop_spec (rs : List (Option RunnerReading)) :
    ∀ (buffer : List TsSample) (second : ℕ),
    (sample_loop buffer second rs).2 = second + rs.length ∧
    (sample_loop buffer second rs).1.map TsSample.second =
      buffer.map TsSample.second ++
        ((List.range rs.length).filter (fun i => (rs.getD i none).isSome)).map
          (second + ·) := by
  induction rs with
  | nil =>
    intro buffer second
    simp [sample_loop]
  | cons r rest ih =>
    intro buffer second
    have hcomp : ((fun i => ((r :: rest).getD i none).isSome) ∘ Nat.succ) =
        (fun i => (rest.getD i none).isSome) := by
      funext i; rfl
    have hmaps : ∀ l : List ℕ,
        (l.map Nat.succ).map (second + ·) = l.map ((second + 1) + ·) := by
      intro l
      rw [List.map_map]
      apply List.map_congr_left
      intro i _
      simp only [Function.comp_apply]
      omega
    cases r with
    | some rr =>
      have h := ih (buffer ++ [{ rr with second := second }]) (second + 1)
      rw [show sample_loop buffer second (some rr :: rest) =
        sample_loop (buffer ++ [{ rr with second := second }]) (second + 1) rest from rfl]
      refine ⟨by rw [h.1, List.length_cons]; omega, ?_⟩
      rw [h.2, List.length_cons, List.range_succ_eq_map, List.filter_cons,
        if_pos (by rfl), List.filter_map, hcomp, List.map_cons, hmaps]
      simp [List.map_append, List.append_assoc]
    | none =>
      have h := ih buffer (second + 1)
      rw [show sample_loop buffer second (none :: rest) =
        sample_loop buffer (second + 1) rest from rfl]
      refine ⟨by rw [h.1, List.length_cons]; omega, ?_⟩
      rw [h.2, List.length_cons, List.range_succ_eq_map, List.filter_cons,
        if_neg (by simp), List.filter_map, hcomp, hmaps]

/-- Claim C9: in the sampler loop, every tick advances the step counter by exactly 1
(also on a failed read); over any schedule of read outcomes the final counter equals
the number of ticks, the recorded step values are exactly the tick indices whose read
succeeded (failed ticks append nothing but still advance the counter), and therefore
the buffer's recorded step values are strictly increasing, possibly with gaps. -/
theorem claim_C9 (rs : List (Option RunnerReading)) :
    (∀ (buffer : List TsSample) (second : ℕ) (reading : Option RunnerReading),
      (sample_loop_step buffer second reading).2 = second + 1) ∧
    (sample_loop [] 0 rs).2 = rs.length ∧
    (sample_loop [] 0 rs).1.map TsSample.second =
      (List.range rs.length).filter (fun i => (rs.getD i none).isSome) ∧
    ((sample_loop [] 0 rs).1.map TsSample.second).Chain' (· < ·) := by
  have h := sample_loop_spec rs [] 0
  have hmap : (sample_loop [] 0 rs).1.map TsSample.second =
      (List.range rs.length).filter (fun i => (rs.getD i none).isSome) := by
    rw [h.2]
    simp
  refine ⟨fun b s r => ?_, by rw [h.1]; omega, hmap, ?_⟩
  · cases r <;> rfl
  · rw [hmap]
    exact ((List.pairwise_lt_range _).filter _).chain'

/-- Concrete runner reading used by the C9 witness. -/
def r0 : RunnerReading := ⟨0, 0, 0, 0, 0, 0, 0, 0⟩

/-- Witness for C9 on the schedule success-failure-success: three ticks advance the
counter to 3 and the recorded steps are `[0, 2]` — the failed middle tick leaves a gap
but the counter still advanced. -/
theorem claim_C9_witness :
    (sample_loop [] 0 [some r0, none, some r0]).2 = 3 ∧
    (sample_loop [] 0 [some r0, none, some r0]).1.map TsSample.second = [0, 2] := by
  refine ⟨(claim_C9 [some r0, none, some r0]).2.1, ?_⟩
  rw [(claim_C9 [some r0, none, some r0]).2.2.1]
  decide

/-! ## Helper lemmas: trace analysis -/

theorem per_request_records_go (traces : List (List Span)) :
    ∀ acc : List SpanAnalysis,
    traces.foldl
        (fun acc spans => if spans.isEmpty then acc else acc ++ [analyze_spans spans])
        acc =
      acc ++ (traces.filter (fun spans => !spans.isEmpty)).map analyze_spans := by
  induction traces with
  | nil => intro acc; simp
  | cons t ts ih =>
    intro acc
    rw [List.foldl_cons]
    by_cases h : t.isEmpty
    · rw [if_pos h, ih acc]
      simp [List.filter_cons, h]
    · rw [if_neg h, ih (acc ++ [analyze_spans t])]
      simp [List.filter_cons, h]

/-- `per_request_records` keeps exactly the traces with a non-empty span list, in
order, each analyzed by `analyze_spans` — whether or not any span name matched. -/
theorem per_request_records_eq (traces : List (List Span)) :
    per_request_records traces =
      (traces.filter (fun spans => !spans.isEmpty)).map analyze_spans := by
  unfold per_request_records
  simpa using per_request_records_go traces []

/-- A span whose name matches none of the recognized patterns leaves the accumulator
unchanged. -/
theorem analyzeStep_unmatched (acc : SpanAnalysis) (sp : Span)
    (h : ¬ Span.matchesAny sp) : analyzeStep acc sp = acc := by
  unfold Span.matchesAny at h
  push_neg at h
  obtain ⟨⟨h1a, h1b⟩, ⟨h2a, h2b, h2c⟩, ⟨h3a, h3b⟩, h4a, h4b⟩ := h
  unfold analyzeStep
  rw [if_neg (by tauto), if_neg (by tauto), if_neg (by tauto), if_neg (by tauto)]

/-- A trace none of whose span names match any recognized pattern analyzes to the
all-zero record. -/
theorem analyze_spans_unmatched (spans : List Span)
    (h : ∀ sp ∈ spans, ¬ Span.matchesAny sp) :
    analyze_spans spans = SpanAnalysis.init := by
  unfold analyze_spans
  induction spans with
  | nil => rfl
  | cons sp rest ih =>
    rw [List.foldl_cons, analyzeStep_unmatched _ _ (h sp (List.mem_cons_self _ _))]
    exact ih (fun t ht => h t (List.mem_cons_of_mem sp ht))

/-- Claim C8 (amended): the trace correlator produces one per-request record per trace
with a non-empty extracted span list — a trace with no spans at all is silently
excluded — but a trace whose spans exist while none of their names match any
recognized pattern is NOT excluded: it still contributes a record, namely the all-zero
analysis (which in turn contributes nothing to the duration/tool aggregates, since
those filter on positive values). -/
theorem claim_C8 (traces : List (List Span)) :
    per_request_records traces =
      (traces.filter (fun spans => !spans.isEmpty)).map analyze_spans ∧
    (∀ spans : List Span, (∀ sp ∈ spans, ¬ Span.matchesAny sp) →
      analyze_spans spans = SpanAnalysis.init) :=
  ⟨per_request_records_eq traces, fun spans h => analyze_spans_unmatched spans h⟩

/-- The span used by the C8 counterexample: a name matching no pattern, with valid
timestamps. -/
def c8span : Span := ⟨"foo", 1, 2⟩

/-- Witness for C8 (amended) on a two-trace input (one with an unmatched span, one
with no spans): only the span-less trace is dropped; and a concrete unmatched trace
analyzes to the zero record. -/
theorem claim_C8_witness :
    per_request_records [[c8span], []] =
      (([[c8span], []].filter (fun spans => !spans.isEmpty)).map analyze_spans) ∧
    analyze_spans [⟨"bar", 0, 0⟩] = SpanAnalysis.init :=
  ⟨(claim_C8 [[c8span], []]).1,
   (claim_C8 []).2 [⟨"bar", 0, 0⟩] (by decide)⟩

/-- Counterexample for C8 as stated: the trace `[["foo" span]]` has spans but none of
their names match any recognized pattern, yet it is NOT excluded from the per-request
list — the list has length 1, not 0. -/
theorem claim_C8_counterexample :
    (per_request_records [[c8span]]).length = 1 ∧ ¬ Span.matchesAny c8span :=
  ⟨rfl, by decide⟩

/-! ## Helper lemmas: percentiles -/

/-- The list `[1, 2, ..., n]` as rationals (the spec's percentile test input). -/
def oneTo (n : ℕ) : List ℚ := (List.range n).map (fun k : ℕ => ((k + 1 : ℕ) : ℚ))

theorem sorted_oneTo (n : ℕ) : List.Sorted (· ≤ ·) (oneTo n) := by
  unfold oneTo
  refine List.Pairwise.map _ ?_ (List.pairwise_lt_range n)
  intro a b hab
  exact_mod_cast Nat.succ_le_succ (le_of_lt hab)

theorem foldl_max_mem (xs : List ℚ) (x : ℚ) : xs.foldl max x ∈ x :: xs := by
  induction xs generalizing x with
  | nil => simp
  | cons y ys ih =>
    rw [List.foldl_cons]
    rcases List.mem_cons.mp (ih (max x y)) with h1 | h1
    · rw [h1]
      rcases max_choice x y with hm | hm <;> rw [hm]
      · exact List.mem_cons_self _ _
      · exact List.mem_cons_of_mem _ (List.mem_cons_self _ _)
    · exact List.mem_cons_of_mem _ (List.mem_cons_of_mem _ h1)

theorem init_le_foldl_max (xs : List ℚ) : ∀ x : ℚ, x ≤ xs.foldl max x := by
  induction xs with
  | nil => intro x; exact le_refl x
  | cons z zs ih =>
    intro x
    rw [List.foldl_cons]
    exact (le_max_left x z).trans (ih (max x z))

theorem mem_le_foldl_max (xs : List ℚ) : ∀ (x y : ℚ), y ∈ xs → y ≤ xs.foldl max x := by
  induction xs with
  | nil => intro x y hy; cases hy
  | cons z zs ih =>
    intro x y hy
    rw [List.foldl_cons]
    rcases List.mem_cons.mp hy with rfl | hzz
    · exact (le_max_right x _).trans (init_le_foldl_max zs _)
    · exact ih _ y hzz

theorem pymax_mem (l : List ℚ) (hne : l ≠ []) : pymax l ∈ l := by
  cases l with
  | nil => exact absurd rfl hne
  | cons x xs => exact foldl_max_mem xs x

theorem le_pymax (l : List ℚ) (x : ℚ) (hx : x ∈ l) : x ≤ pymax l := by
  cases l with
  | nil => cases hx
  | cons y ys =>
    rcases List.mem_cons.mp hx with rfl | h
    · exact init_le_foldl_max ys _
    · exact mem_le_foldl_max ys y x h

theorem getD_last_index (l : List ℚ) (d : ℚ) (hne : l ≠ []) :
    l.getD (l.length - 1) d = l.getLastD d := by
  have hpos : 0 < l.length := List.length_pos.mpr hne
  rw [List.getD_eq_getElem l d (by omega), List.getLastD_eq_getLast?,
    List.getLast?_eq_getLast l hne, Option.getD_some, List.getLast_eq_getElem]

/-- On the ascending sort, the element at the last index is the maximum of the list. -/
theorem sorted_getD_last_eq_pymax (l : List ℚ) (hne : l ≠ []) :
    (l.insertionSort (· ≤ ·)).getD (l.length - 1) 0 = pymax l := by
  have hperm := List.perm_insertionSort (· ≤ ·) l
  have hsorted : List.Sorted (· ≤ ·) (l.insertionSort (· ≤ ·)) :=
    List.sorted_insertionSort (· ≤ ·) l
  have hlen : (l.insertionSort (· ≤ ·)).length = l.length := hperm.length_eq
  have hsne : l.insertionSort (· ≤ ·) ≠ [] := by
    intro h0
    exact hne (List.eq_nil_of_length_eq_zero (by rw [← hlen, h0]; rfl))
  rw [← hlen, getD_last_index _ _ hsne]
  apply le_antisymm
  · exact le_pymax l _ (hperm.mem_iff.mp (getLastD_mem _ 0 hsne))
  · exact chain_le_le_getLastD _ 0 hsorted.chain' _ (hperm.mem_iff.mpr (pymax_mem l hne))

/-- With fewer than 20 samples, the local summary writer's nearest-rank p95 index
`⌊n * 0.95⌋` equals `n - 1`, so the reported p95 is the maximum observed value. -/
theorem summary_percentiles_small_p95 (l : List ℚ) (hne : l ≠ []) (hlen : l.length < 20) :
    ∃ p50 p99, summary_percentiles l = some (p50, pymax l, p99) := by
  have hpos : 0 < l.length := List.length_pos.mpr hne
  have hslen : (l.insertionSort (· ≤ ·)).length = l.length :=
    (List.perm_insertionSort _ l).length_eq
  have hmid : (l.insertionSort (· ≤ ·)).getD
      ((l.insertionSort (· ≤ ·)).length * 95 / 100) 0 = pymax l := by
    rw [hslen, show l.length * 95 / 100 = l.length - 1 from by omega]
    exact sorted_getD_last_eq_pymax l hne
  refine ⟨(l.insertionSort (· ≤ ·)).getD ((l.insertionSort (· ≤ ·)).length / 2) 0,
          (l.insertionSort (· ≤ ·)).getD ((l.insertionSort (· ≤ ·)).length * 99 / 100) 0,
          ?_⟩
  unfold summary_percentiles
  rw [if_neg (by simp [List.isEmpty_iff, hne])]
  dsimp only
  rw [hmid]

/-- `safe_p95` with fewer than 20 samples falls back to the maximum. -/
theorem safe_p95_small (l : List ℚ) (hlen : l.length < 20) : safe_p95 l = pymax l := by
  unfold safe_p95
  rw [if_neg (by omega)]

theorem oneTo_length (n : ℕ) : (oneTo n).length = n := by
  rw [oneTo, List.length_map, List.length_range]

/-- `safe_p95` on `[1, ..., 20]` interpolates: cut 19 of 20 on n = 20 sits at rank
19.95 of the 1-based positions, giving `19 + 0.95 = 19.95 = 399/20`. -/
theorem safe_p95_oneTo20 : safe_p95 (oneTo 20) = 399 / 20 := by
  have hsort : (oneTo 20).insertionSort (· ≤ ·) = oneTo 20 :=
    List.Sorted.insertionSort_eq (sorted_oneTo 20)
  unfold safe_p95
  rw [if_pos (by rw [oneTo_length])]
  unfold quantiles_exclusive_cut
  rw [hsort]
  dsimp only
  rw [oneTo_length]
  norm_num
  rw [show ((oneTo 20)[18]?.getD 0 : ℚ) = 19 from by decide,
      show ((oneTo 20)[19]?.getD 0 : ℚ) = 20 from by decide]
  norm_num

/-- `statistics.median` on `[1, ..., 100]` averages the two middle elements. -/
theorem pymedian_oneTo100 : pymedian (oneTo 100) = 101 / 2 := by
  have hsort : (oneTo 100).insertionSort (· ≤ ·) = oneTo 100 :=
    List.Sorted.insertionSort_eq (sorted_oneTo 100)
  unfold pymedian
  rw [hsort]
  dsimp only
  rw [oneTo_length]
  norm_num
  rw [show ((oneTo 100)[49]?.getD 0 : ℚ) = 50 from by decide,
      show ((oneTo 100)[50]?.getD 0 : ℚ) = 51 from by decide]
  norm_num

/-- Claim C1 (amended): the local summary writer (metrics_collector) uses nearest-rank
percentiles — on `[1..100]` it reports `(p50, p95, p99) = (51, 96, 100)`, i.e. the
sorted elements at indices `n // 2`, `⌊n·0.95⌋`, `⌊n·0.99⌋` — and whenever `n < 20`
its reported p95 is the maximum observed value; the trace aggregate computation
(`safe_p95`) reports the maximum whenever `n < 20`, but for `n ≥ 20` it uses
interpolated exclusive quantiles rather than nearest-rank: on `[1..20]` it reports
`19.95 = 399/20`, not the element `20` at index `⌊20·0.95⌋ = 19`. -/
theorem claim_C1 :
    summary_percentiles (oneTo 100) = some (51, 96, 100) ∧
    (∀ l : List ℚ, l ≠ [] → l.length < 20 →
      safe_p95 l = pymax l ∧
      ∃ p50 p99, summary_percentiles l = some (p50, pymax l, p99)) ∧
    safe_p95 (oneTo 20) = 399 / 20 :=
  ⟨by decide,
   fun l hne hlen => ⟨safe_p95_small l hlen, summary_percentiles_small_p95 l hne hlen⟩,
   safe_p95_oneTo20⟩

/-- Witness for C1 on the 3-element list `[3, 1, 2]` (n < 20): both aggregation sites
report the maximum as p95. -/
theorem claim_C1_witness :
    safe_p95 [3, 1, 2] = pymax [3, 1, 2] ∧
    ∃ p50 p99, summary_percentiles [3, 1, 2] = some (p50, pymax [3, 1, 2], p99) :=
  ⟨(claim_C1.2.1 [3, 1, 2] (by decide) (by decide)).1,
   (claim_C1.2.1 [3, 1, 2] (by decide) (by decide)).2⟩

/-- Counterexample for C1 as stated: on input `[1, 2, ..., 100]` the trace aggregate
computation reports p50 = `statistics.median` = 50.5, not the claimed nearest-rank
element 51 at sorted index `100 // 2` — the two aggregation call sites do not share
the nearest-rank rule. -/
theorem claim_C1_counterexample :
    pymedian (oneTo 100) = 101 / 2 ∧ (101 : ℚ) / 2 ≠ 51 :=
  ⟨pymedian_oneTo100, by norm_num⟩
